import Mathlib

/-!
Verification of the bit-address resolver constants of rust-playground.

The repository's non-test logic consists of two constant tables and a mask
derivation:

* `src/bitshifts.rs` defines `BITSHIFTS_NEEDED : u8` by matching on
  `usize::BITS` (128 → 7, 64 → 6, 32 → 5, 16 → 4, 8 → 3, otherwise a
  compile-time panic), and `REMAINDER_MASK : usize` as
  `(usize::MAX << (usize::BITS - BITSHIFTS_NEEDED)) >> (usize::BITS - BITSHIFTS_NEEDED)`.
* `src/hashes.rs` defines its own `BITSHIFTS_NEEDED : u8`
  (128 → 6, 64 → 5, 32 → 4, 16 → 3, 8 → 4, otherwise a compile-time panic).

We embed the constants as functions of the word width `bits` (the value of
`usize::BITS`).  The fatal `panic!("Unsupported architecture")` arm is
embedded as `Option.none`; machine integers are `Nat` with explicit
`% 2 ^ bits` where Rust's fixed-width truncation matters.
-/

namespace RustPlayground

/-- The enumerated set of word widths the source's match arms accept. -/
def supportedWidths : List Nat := [8, 16, 32, 64, 128]

namespace Bitshifts

/-- Embedding of `BITSHIFTS_NEEDED` from `src/bitshifts.rs`: the match on
`usize::BITS`, with the `panic!("Unsupported architecture")` arm as `none`. -/
def BITSHIFTS_NEEDED (bits : Nat) : Option Nat :=
  match bits with
  | 128 => some 7
  | 64 => some 6
  | 32 => some 5
  | 16 => some 4
  | 8 => some 3
  | _ => none

/-- Embedding of `REMAINDER_MASK` from `src/bitshifts.rs`:
`(usize::MAX << (usize::BITS - s)) >> (usize::BITS - s)` where `s` is the
derived shift.  `usize::MAX` is `2 ^ bits - 1`; the left shift truncates to
the width of `usize`, hence the `% 2 ^ bits`. -/
def REMAINDER_MASK (bits s : Nat) : Nat :=
  (((2 ^ bits - 1) <<< (bits - s)) % 2 ^ bits) >>> (bits - s)

end Bitshifts

namespace Hashes

/-- Embedding of `BITSHIFTS_NEEDED` from `src/hashes.rs`: the hash-digest
context table, with the `panic!("Unsupported architecture")` arm as `none`. -/
def BITSHIFTS_NEEDED (bits : Nat) : Option Nat :=
  match bits with
  | 128 => some 6
  | 64 => some 5
  | 32 => some 4
  | 16 => some 3
  | 8 => some 4
  | _ => none

end Hashes

/-- Modelled from the spec: `resolve(bit_index, shift, mask)` (spec section 6)
returns `(word_index, bit_offset)` where `word_index = bit_index >> shift`
and `bit_offset = bit_index & mask`.  The repository exposes only the
constants; the resolve combination itself is described by the spec. -/
def resolve (s mask i : Nat) : Nat × Nat :=
  (i >>> s, i &&& mask)

/-- Modelled from the spec: the arithmetic reference for `resolve`, using
integer division and modulo by the word width. -/
def resolveDivMod (width i : Nat) : Nat × Nat :=
  (i / width, i % width)

lemma resolve_pow (s i : Nat) :
    resolve s (2 ^ s - 1) i = (i / 2 ^ s, i % 2 ^ s) := by
  simp [resolve, Nat.shiftRight_eq_div_pow, Nat.and_pow_two_sub_one_eq_mod]

lemma roundtrip_pow (s i : Nat) :
    (i >>> s) * 2 ^ s + (i &&& (2 ^ s - 1)) = i ∧ i &&& (2 ^ s - 1) < 2 ^ s := by
  rw [Nat.shiftRight_eq_div_pow, Nat.and_pow_two_sub_one_eq_mod]
  refine ⟨?_, Nat.mod_lt i (Nat.two_pow_pos s)⟩
  rw [Nat.mul_comm]
  exact Nat.div_add_mod i (2 ^ s)

lemma mask_eq_8 : Bitshifts.REMAINDER_MASK 8 3 = 2 ^ 3 - 1 := by decide

lemma mask_eq_16 : Bitshifts.REMAINDER_MASK 16 4 = 2 ^ 4 - 1 := by decide

lemma mask_eq_32 : Bitshifts.REMAINDER_MASK 32 5 = 2 ^ 5 - 1 := by decide

lemma mask_eq_64 : Bitshifts.REMAINDER_MASK 64 6 = 2 ^ 6 - 1 := by decide

lemma mask_eq_128 : Bitshifts.REMAINDER_MASK 128 7 = 2 ^ 7 - 1 := by decide

/-- Claim C1: for every supported word width and every bit index, the
resolved address round-trips: `word_index * width + bit_offset = bit_index`
and `bit_offset < width`, with `word_index = i >> BITSHIFTS_NEEDED` and
`bit_offset = i &&& REMAINDER_MASK`. -/
theorem C1_roundtrip (bits : Nat) (h : bits ∈ supportedWidths) (i : Nat) :
    ∃ s, Bitshifts.BITSHIFTS_NEEDED bits = some s ∧
      (i >>> s) * bits + (i &&& Bitshifts.REMAINDER_MASK bits s) = i ∧
      i &&& Bitshifts.REMAINDER_MASK bits s < bits := by
  simp only [supportedWidths, List.mem_cons, List.not_mem_nil, or_false] at h
  rcases h with h | h | h | h | h <;> subst h
  · exact ⟨3, rfl, by rw [mask_eq_8]; exact roundtrip_pow 3 i⟩
  · exact ⟨4, rfl, by rw [mask_eq_16]; exact roundtrip_pow 4 i⟩
  · exact ⟨5, rfl, by rw [mask_eq_32]; exact roundtrip_pow 5 i⟩
  · exact ⟨6, rfl, by rw [mask_eq_64]; exact roundtrip_pow 6 i⟩
  · exact ⟨7, rfl, by rw [mask_eq_128]; exact roundtrip_pow 7 i⟩

/-- Witness for C1 at width 64 and bit index 130 (the spec's own example). -/
theorem C1_roundtrip_witness :
    (64 ∈ supportedWidths) ∧
    ∃ s, Bitshifts.BITSHIFTS_NEEDED 64 = some s ∧
      (130 >>> s) * 64 + (130 &&& Bitshifts.REMAINDER_MASK 64 s) = 130 ∧
      130 &&& Bitshifts.REMAINDER_MASK 64 s < 64 :=
  ⟨by decide, C1_roundtrip 64 (by decide) 130⟩

/-- Claim C2: for every supported word width and every bit index, the
shift/mask resolver agrees with the division/modulo reference. -/
theorem C2_equiv_div_mod (bits : Nat) (h : bits ∈ supportedWidths) (i : Nat) :
    ∃ s, Bitshifts.BITSHIFTS_NEEDED bits = some s ∧
      resolve s (Bitshifts.REMAINDER_MASK bits s) i = resolveDivMod bits i := by
  simp only [supportedWidths, List.mem_cons, List.not_mem_nil, or_false] at h
  rcases h with h | h | h | h | h <;> subst h
  · exact ⟨3, rfl, by rw [mask_eq_8, resolve_pow]; rfl⟩
  · exact ⟨4, rfl, by rw [mask_eq_16, resolve_pow]; rfl⟩
  · exact ⟨5, rfl, by rw [mask_eq_32, resolve_pow]; rfl⟩
  · exact ⟨6, rfl, by rw [mask_eq_64, resolve_pow]; rfl⟩
  · exact ⟨7, rfl, by rw [mask_eq_128, resolve_pow]; rfl⟩

/-- Witness for C2 at width 32 and bit index 1000. -/
theorem C2_equiv_div_mod_witness :
    (32 ∈ supportedWidths) ∧
    ∃ s, Bitshifts.BITSHIFTS_NEEDED 32 = some s ∧
      resolve s (Bitshifts.REMAINDER_MASK 32 s) 1000 = resolveDivMod 32 1000 :=
  ⟨by decide, C2_equiv_div_mod 32 (by decide) 1000⟩

/-- Claim C3, counterexample: the hash-digest table assigns 3 to width 16,
but `2 ^ 3 ≠ 16`, so the entry for 16 is not `log2 16` as the claim states. -/
theorem C3_counterexample :
    Hashes.BITSHIFTS_NEEDED 16 = some 3 ∧ (2 : Nat) ^ 3 ≠ 16 := by
  decide

/-- Claim C3, amended: in the hash-digest table, width 8 is assigned 4, and
every other enumerated width is assigned `log2(width) - 1`, one less than
the native log2 relationship: the entry `s` satisfies `2 ^ (s + 1) = width`. -/
theorem C3_amended_hash_table :
    Hashes.BITSHIFTS_NEEDED 8 = some 4 ∧
    Hashes.BITSHIFTS_NEEDED 16 = some 3 ∧ (2 : Nat) ^ (3 + 1) = 16 ∧
    Hashes.BITSHIFTS_NEEDED 32 = some 4 ∧ (2 : Nat) ^ (4 + 1) = 32 ∧
    Hashes.BITSHIFTS_NEEDED 64 = some 5 ∧ (2 : Nat) ^ (5 + 1) = 64 ∧
    Hashes.BITSHIFTS_NEEDED 128 = some 6 ∧ (2 : Nat) ^ (6 + 1) = 128 := by
  decide

/-- Claim C4: for every supported width, the two complementary shifts of the
all-ones value yield exactly `width - 1`, the low-`Shift`-bits mask
`2 ^ Shift - 1`. -/
theorem C4_mask_derivation (bits : Nat) (h : bits ∈ supportedWidths) :
    ∃ s, Bitshifts.BITSHIFTS_NEEDED bits = some s ∧
      Bitshifts.REMAINDER_MASK bits s = bits - 1 ∧
      Bitshifts.REMAINDER_MASK bits s = 2 ^ s - 1 := by
  simp only [supportedWidths, List.mem_cons, List.not_mem_nil, or_false] at h
  rcases h with h | h | h | h | h <;> subst h
  · exact ⟨3, rfl, by decide, mask_eq_8⟩
  · exact ⟨4, rfl, by decide, mask_eq_16⟩
  · exact ⟨5, rfl, by decide, mask_eq_32⟩
  · exact ⟨6, rfl, by decide, mask_eq_64⟩
  · exact ⟨7, rfl, by decide, mask_eq_128⟩

/-- Witness for C4 at width 64: the mask is 63. -/
theorem C4_mask_derivation_witness :
    (64 ∈ supportedWidths) ∧
    ∃ s, Bitshifts.BITSHIFTS_NEEDED 64 = some s ∧
      Bitshifts.REMAINDER_MASK 64 s = 64 - 1 ∧
      Bitshifts.REMAINDER_MASK 64 s = 2 ^ s - 1 :=
  ⟨by decide, C4_mask_derivation 64 (by decide)⟩

/-- Claim C5: the native-context table is exactly
8 → 3, 16 → 4, 32 → 5, 64 → 6, 128 → 7, and each entry `s` satisfies
`2 ^ s = width`. -/
theorem C5_native_table_log2 :
    Bitshifts.BITSHIFTS_NEEDED 8 = some 3 ∧ (2 : Nat) ^ 3 = 8 ∧
    Bitshifts.BITSHIFTS_NEEDED 16 = some 4 ∧ (2 : Nat) ^ 4 = 16 ∧
    Bitshifts.BITSHIFTS_NEEDED 32 = some 5 ∧ (2 : Nat) ^ 5 = 32 ∧
    Bitshifts.BITSHIFTS_NEEDED 64 = some 6 ∧ (2 : Nat) ^ 6 = 64 ∧
    Bitshifts.BITSHIFTS_NEEDED 128 = some 7 ∧ (2 : Nat) ^ 7 = 128 := by
  decide

/-- Claim C6: for every supported width and every bit index `k`, resolving
`k + width` yields a word index exactly one larger than resolving `k`, and
an identical bit offset. -/
theorem C6_monotonicity (bits : Nat) (h : bits ∈ supportedWidths) (k : Nat) :
    ∃ s, Bitshifts.BITSHIFTS_NEEDED bits = some s ∧
      (resolve s (Bitshifts.REMAINDER_MASK bits s) (k + bits)).1
        = (resolve s (Bitshifts.REMAINDER_MASK bits s) k).1 + 1 ∧
      (resolve s (Bitshifts.REMAINDER_MASK bits s) (k + bits)).2
        = (resolve s (Bitshifts.REMAINDER_MASK bits s) k).2 := by
  have step : ∀ s k : Nat,
      (resolve s (2 ^ s - 1) (k + 2 ^ s)).1 = (resolve s (2 ^ s - 1) k).1 + 1 ∧
      (resolve s (2 ^ s - 1) (k + 2 ^ s)).2 = (resolve s (2 ^ s - 1) k).2 := by
    intro s k
    rw [resolve_pow, resolve_pow]
    exact ⟨Nat.add_div_right k (Nat.two_pow_pos s), Nat.add_mod_right k (2 ^ s)⟩
  simp only [supportedWidths, List.mem_cons, List.not_mem_nil, or_false] at h
  rcases h with h | h | h | h | h <;> subst h
  · exact ⟨3, rfl, by rw [mask_eq_8]; exact step 3 k⟩
  · exact ⟨4, rfl, by rw [mask_eq_16]; exact step 4 k⟩
  · exact ⟨5, rfl, by rw [mask_eq_32]; exact step 5 k⟩
  · exact ⟨6, rfl, by rw [mask_eq_64]; exact step 6 k⟩
  · exact ⟨7, rfl, by rw [mask_eq_128]; exact step 7 k⟩

/-- Witness for C6 at width 8 and bit index 5. -/
theorem C6_monotonicity_witness :
    (8 ∈ supportedWidths) ∧
    ∃ s, Bitshifts.BITSHIFTS_NEEDED 8 = some s ∧
      (resolve s (Bitshifts.REMAINDER_MASK 8 s) (5 + 8)).1
        = (resolve s (Bitshifts.REMAINDER_MASK 8 s) 5).1 + 1 ∧
      (resolve s (Bitshifts.REMAINDER_MASK 8 s) (5 + 8)).2
        = (resolve s (Bitshifts.REMAINDER_MASK 8 s) 5).2 :=
  ⟨by decide, C6_monotonicity 8 (by decide) 5⟩

/-- Claim C7: any width outside the enumerated set makes both derivation
tables hit the `panic!` arm (embedded as `none`): no shift and hence no mask
is ever produced. -/
theorem C7_unsupported_width_rejected (w : Nat) (h : w ∉ supportedWidths) :
    Bitshifts.BITSHIFTS_NEEDED w = none ∧ Hashes.BITSHIFTS_NEEDED w = none := by
  constructor
  · unfold Bitshifts.BITSHIFTS_NEEDED
    split
    all_goals first
      | rfl
      | (exfalso; exact h (by simp_all [supportedWidths]))
  · unfold Hashes.BITSHIFTS_NEEDED
    split
    all_goals first
      | rfl
      | (exfalso; exact h (by simp_all [supportedWidths]))

/-- Witness for C7 at width 17, the spec's own rejection example. -/
theorem C7_unsupported_width_rejected_witness :
    (17 ∉ supportedWidths) ∧
    Bitshifts.BITSHIFTS_NEEDED 17 = none ∧ Hashes.BITSHIFTS_NEEDED 17 = none :=
  ⟨by decide, C7_unsupported_width_rejected 17 (by decide)⟩

/-- Claim C8: with a validly derived shift and mask, resolution is total:
the shift amount is strictly below the word width (so the Rust shift cannot
overflow), and for every representable bit index — the maximum value
included — both output components are themselves representable. -/
theorem C8_resolve_total (bits : Nat) (h : bits ∈ supportedWidths) :
    ∃ s, Bitshifts.BITSHIFTS_NEEDED bits = some s ∧ s < bits ∧
      ∀ i, i < 2 ^ bits →
        (resolve s (Bitshifts.REMAINDER_MASK bits s) i).1 < 2 ^ bits ∧
        (resolve s (Bitshifts.REMAINDER_MASK bits s) i).2 < 2 ^ bits := by
  have total : ∀ s bits : Nat, 2 ^ s ≤ 2 ^ bits → ∀ i, i < 2 ^ bits →
      (resolve s (2 ^ s - 1) i).1 < 2 ^ bits ∧
      (resolve s (2 ^ s - 1) i).2 < 2 ^ bits := by
    intro s bits hle i hi
    rw [resolve_pow]
    refine ⟨Nat.lt_of_le_of_lt (Nat.div_le_self i (2 ^ s)) hi, ?_⟩
    exact Nat.lt_of_lt_of_le (Nat.mod_lt i (Nat.two_pow_pos s)) hle
  simp only [supportedWidths, List.mem_cons, List.not_mem_nil, or_false] at h
  rcases h with h | h | h | h | h <;> subst h
  · exact ⟨3, rfl, by decide, by rw [mask_eq_8]; exact total 3 8 (by norm_num)⟩
  · exact ⟨4, rfl, by decide, by rw [mask_eq_16]; exact total 4 16 (by norm_num)⟩
  · exact ⟨5, rfl, by decide, by rw [mask_eq_32]; exact total 5 32 (by norm_num)⟩
  · exact ⟨6, rfl, by decide, by rw [mask_eq_64]; exact total 6 64 (by norm_num)⟩
  · exact ⟨7, rfl, by decide, by rw [mask_eq_128]; exact total 7 128 (by norm_num)⟩

/-- Witness for C8 at width 64. -/
theorem C8_resolve_total_witness :
    (64 ∈ supportedWidths) ∧
    ∃ s, Bitshifts.BITSHIFTS_NEEDED 64 = some s ∧ s < 64 ∧
      ∀ i, i < 2 ^ 64 →
        (resolve s (Bitshifts.REMAINDER_MASK 64 s) i).1 < 2 ^ 64 ∧
        (resolve s (Bitshifts.REMAINDER_MASK 64 s) i).2 < 2 ^ 64 :=
  ⟨by decide, C8_resolve_total 64 (by decide)⟩

/-- Claim C9: for every supported width, the shift amount
`bits - BITSHIFTS_NEEDED` used twice in the mask derivation is strictly
between 0 and the width, so neither shift of the all-ones value overflows. -/
theorem C9_shift_amount_in_range (bits : Nat) (h : bits ∈ supportedWidths) :
    ∃ s, Bitshifts.BITSHIFTS_NEEDED bits = some s ∧
      0 < bits - s ∧ bits - s < bits := by
  simp only [supportedWidths, List.mem_cons, List.not_mem_nil, or_false] at h
  rcases h with h | h | h | h | h <;> subst h
  · exact ⟨3, rfl, by decide, by decide⟩
  · exact ⟨4, rfl, by decide, by decide⟩
  · exact ⟨5, rfl, by decide, by decide⟩
  · exact ⟨6, rfl, by decide, by decide⟩
  · exact ⟨7, rfl, by decide, by decide⟩

/-- Witness for C9 at width 8: the shift amount is 5, strictly between 0
and 8. -/
theorem C9_shift_amount_in_range_witness :
    (8 ∈ supportedWidths) ∧
    ∃ s, Bitshifts.BITSHIFTS_NEEDED 8 = some s ∧ 0 < 8 - s ∧ 8 - s < 8 :=
  ⟨by decide, C9_shift_amount_in_range 8 (by decide)⟩

/-- Claim C10: the two tables are related but not equal: the hash-digest
entry is one less than the native entry at widths 16, 32, 64 and 128, and
one more at width 8. -/
theorem C10_tables_related :
    Hashes.BITSHIFTS_NEEDED 8
      = Option.map (fun s => s + 1) (Bitshifts.BITSHIFTS_NEEDED 8) ∧
    Hashes.BITSHIFTS_NEEDED 16
      = Option.map (fun s => s - 1) (Bitshifts.BITSHIFTS_NEEDED 16) ∧
    Hashes.BITSHIFTS_NEEDED 32
      = Option.map (fun s => s - 1) (Bitshifts.BITSHIFTS_NEEDED 32) ∧
    Hashes.BITSHIFTS_NEEDED 64
      = Option.map (fun s => s - 1) (Bitshifts.BITSHIFTS_NEEDED 64) ∧
    Hashes.BITSHIFTS_NEEDED 128
      = Option.map (fun s => s - 1) (Bitshifts.BITSHIFTS_NEEDED 128) := by
  decide

end RustPlayground
